import Mathlib

/-!
Verification of the quick-draw spaced-repetition scheduling core.

Shallow embedding of the scheduling engine found in
`client/src/lib/srsMath.js`, `client/src/lib/learningSteps.js`,
`client/src/lib/dateUtils.js` and `client/src/lib/srsService.js`.

Modelling choices:
* JavaScript numbers are modelled as rationals (`ℚ`); all arithmetic in the
  scheduling core is exact at the granularity the claims are stated.
* `Math.round x` is `⌊x + 1/2⌋` (JavaScript rounds half toward +∞).
* Timestamps are rationals counting milliseconds; `new Date()` inside
  `scheduleNextReview` becomes an explicit `now` parameter, and the single
  `Math.random()` draw inside `applyFuzz` becomes an explicit `rand`
  parameter (the source calls `Math.random()` once per fuzz application).
* `computeLocalMidnight` (dateUtils.js) depends on the runtime timezone via
  the `Date` API; it is passed in abstractly as a function
  `midnightOf : ℚ → ℚ` from a day offset to a timestamp, exactly as the
  source treats it as an opaque helper.
* In the source, `toUTC(dueAt)` with `dueAt` left `undefined` (which happens
  when no rating branch fires) triggers `toUTC`'s default parameter
  `new Date()`, i.e. the current instant; the embedding models this
  fall-through as `due_at := now`.
-/

namespace QuickDraw

/-- Card lifecycle states, from `CARD_STATE` in srsService.js:
NEW = 'new', LEARNING = 'learning', REVIEW = 'review'. -/
inductive CardState where
  | new
  | learning
  | review
deriving DecidableEq, Repr

/-- The fields of a card-progress record that `scheduleNextReview` reads
(it destructures exactly these six fields from `progress`). -/
structure CardProgress where
  state : CardState
  ease_factor : ℚ
  interval_days : ℚ
  repetitions : ℚ
  lapses : ℚ
  learning_step_index : ℚ
deriving DecidableEq, Repr

/-- The record returned by `scheduleNextReview` (all return sites produce
these eight fields). -/
structure ScheduleResult where
  state : CardState
  ease_factor : ℚ
  interval_days : ℚ
  repetitions : ℚ
  lapses : ℚ
  learning_step_index : ℚ
  due_at : ℚ
  last_reviewed_at : ℚ
deriving DecidableEq, Repr

/-- Deck options as destructured at the top of `scheduleNextReview`. -/
structure DeckOptions where
  easyBonus : ℚ
  hardIntervalFactor : ℚ
  lapseIntervalPercent : ℚ
  intervalModifier : ℚ
  maxIntervalDays : ℚ
  learningSteps : Option String
deriving DecidableEq, Repr

/-- The per-field defaults used when a deck-options field is absent:
easyBonus 1.3, hardIntervalFactor 1.2, lapseIntervalPercent 10,
intervalModifier 1.0, maxIntervalDays 36500, learningSteps '10m,1d'. -/
def defaultDeckOptions : DeckOptions :=
  { easyBonus := 13/10
    hardIntervalFactor := 6/5
    lapseIntervalPercent := 10
    intervalModifier := 1
    maxIntervalDays := 36500
    learningSteps := some "10m,1d" }

/-- JavaScript `Math.round`: round half toward positive infinity. -/
def jround (x : ℚ) : ℚ := ((⌊x + 1/2⌋ : ℤ) : ℚ)

/-- `ratingToQuality` from srsMath.js: Again(1)→0, Hard(2)→2, Good(3)→3,
Easy(4)→5, anything else → 3 (the switch default). -/
def ratingToQuality (rating : ℚ) : ℚ :=
  if rating = 1 then 0
  else if rating = 2 then 2
  else if rating = 3 then 3
  else if rating = 4 then 5
  else 3

/-- `calculateNewEaseFactor` from srsMath.js:
EF + (0.1 − (5−q)·(0.08 + (5−q)·0.02)), clamped below at 1.3. -/
def calculateNewEaseFactor (easeFactor : ℚ) (rating : ℚ) : ℚ :=
  let q := ratingToQuality rating
  let delta := 1/10 - (5 - q) * (8/100 + (5 - q) * (2/100))
  let newEF := easeFactor + delta
  max (13/10) newEF

/-- `applyFuzz` from srsMath.js. `rand` is the value of the single
`Math.random()` draw (in [0,1) at runtime). With `disabled` or an interval
below 2 no random draw influences the result. -/
def applyFuzz (intervalDays : ℚ) (disabled : Bool) (rand : ℚ) : ℚ :=
  if disabled || decide (intervalDays < 2) then
    if intervalDays < 2 then intervalDays else jround intervalDays
  else
    let fuzzRange :=
      if intervalDays < 7 then min 1 (intervalDays * (15/100))
      else if intervalDays < 30 then intervalDays * (5/100)
      else intervalDays * (10/100)
    let fuzz := (rand * 2 - 1) * fuzzRange
    max 1 (jround (intervalDays + fuzz))

/-- Digits to a natural number, most significant first. -/
def digitsToNat (ds : List Char) : ℕ :=
  ds.foldl (fun acc c => 10 * acc + (c.toNat - 48)) 0

/-- JavaScript `String.prototype.split` with a one-character separator,
on character lists: cut at every separator, keeping empty pieces. -/
def jsSplit (sep : Char) : List Char → List Char → List (List Char)
  | [], acc => [acc.reverse]
  | c :: rest, acc =>
    if c = sep then acc.reverse :: jsSplit sep rest []
    else jsSplit sep rest (c :: acc)

/-- JavaScript `String.prototype.trim`: strip whitespace from both ends. -/
def jsTrim (cs : List Char) : List Char :=
  ((cs.dropWhile Char.isWhitespace).reverse.dropWhile Char.isWhitespace).reverse

/-- JavaScript `String.prototype.toLowerCase` on the characters involved
here (ASCII). -/
def jsToLower (cs : List Char) : List Char := cs.map Char.toLower

/-- Whether a character list ends with the given character
(`String.prototype.endsWith` with a one-character argument). -/
def lastIs (c : Char) (cs : List Char) : Bool := cs.getLast? = some c

/-- The numeric value of a parsed decimal literal: sign `neg`, integer
digits with value `ip`, `fpLen` fraction digits with value `fp`, decimal
exponent `ex`. -/
def floatVal (neg : Bool) (ip fp fpLen : ℕ) (ex : ℤ) : ℚ :=
  (if neg then -1 else 1) * ((ip : ℚ) + (fp : ℚ) / (10 : ℚ) ^ fpLen) * (10 : ℚ) ^ ex

/-- The signed value of parsed exponent digits. -/
def expValOf (neg : Bool) (ds : List Char) : ℤ :=
  (if neg then -1 else 1) * (digitsToNat ds : ℤ)

/-- JavaScript `parseFloat`: skip leading whitespace, then parse the longest
decimal-literal prefix `[+-]? digits [. digits?]? [e[+-]?digits]?` (also
`.digits`); `none` models `NaN` when no digit is found. The `Infinity`
literal cannot occur here because callers lowercase the token first and
`parseFloat` only accepts the capitalized spelling. -/
def jsParseFloat (s : List Char) : Option ℚ :=
  let cs := s.dropWhile (fun c => c.isWhitespace)
  let signAndRest : Bool × List Char :=
    match cs with
    | '-' :: rest => (true, rest)
    | '+' :: rest => (false, rest)
    | _ => (false, cs)
  let neg := signAndRest.1
  let cs1 := signAndRest.2
  let intDs := cs1.takeWhile Char.isDigit
  let cs2 := cs1.dropWhile Char.isDigit
  let fracAndRest : List Char × List Char :=
    match cs2 with
    | '.' :: rest => (rest.takeWhile Char.isDigit, rest.dropWhile Char.isDigit)
    | _ => ([], cs2)
  let fracDs := fracAndRest.1
  let cs3 := fracAndRest.2
  if intDs.isEmpty && fracDs.isEmpty then none
  else
    let expVal : ℤ :=
      match cs3 with
      | 'e' :: rest =>
        let esignAndRest : Bool × List Char :=
          match rest with
          | '-' :: r => (true, r)
          | '+' :: r => (false, r)
          | _ => (false, rest)
        let eDs := esignAndRest.2.takeWhile Char.isDigit
        if eDs.isEmpty then 0 else expValOf esignAndRest.1 eDs
      | 'E' :: rest =>
        let esignAndRest : Bool × List Char :=
          match rest with
          | '-' :: r => (true, r)
          | '+' :: r => (false, r)
          | _ => (false, rest)
        let eDs := esignAndRest.2.takeWhile Char.isDigit
        if eDs.isEmpty then 0 else expValOf esignAndRest.1 eDs
      | _ => 0
    some (floatVal neg (digitsToNat intDs) (digitsToNat fracDs) fracDs.length expVal)

/-- One token of `parseLearningSteps`'s `map` callback (learningSteps.js):
trim, lowercase, `parseFloat`; drop NaN and nonpositive values; suffix
`d` → ×1440, `h` → ×60, otherwise minutes. -/
def parseStep (tok : List Char) : Option ℚ :=
  let step := jsToLower (jsTrim tok)
  match jsParseFloat step with
  | none => none
  | some value =>
    if value ≤ 0 then none
    else if lastIs 'd' step then some (value * 24 * 60)
    else if lastIs 'h' step then some (value * 60)
    else some value

/-- `parseLearningSteps` from learningSteps.js. `none` models a null or
undefined argument; both it and the empty string are falsy and return the
default `[10, 1440]`, as does any input whose every token is dropped. -/
def parseLearningSteps (stepsStr : Option String) : List ℚ :=
  match stepsStr with
  | none => [10, 1440]
  | some s =>
    if s.data = [] then [10, 1440]
    else
      let steps := (jsSplit ',' s.data []).filterMap parseStep
      if 0 < steps.length then steps else [10, 1440]

/-- `scheduleNextReview` from srsService.js. `now` is the instant of the
internal `new Date()`; `midnightOf d` is `computeLocalMidnight(d)`;
`rand` is the `Math.random()` draw consumed by `applyFuzz` on the
review-success path (unused elsewhere). The if-chain mirrors the source's
branch structure; the final branch of the learning phase models the
fall-through for unrecognized ratings, where `dueAt` stays undefined and
`toUTC(undefined)` yields the current instant. -/
def scheduleNextReview (progress : CardProgress) (rating : ℚ) (opts : DeckOptions)
    (now : ℚ) (midnightOf : ℚ → ℚ) (rand : ℚ) : ScheduleResult :=
  let _steps := parseLearningSteps opts.learningSteps
  let msPerMinute : ℚ := 60 * 1000
  let learningAgainMinutes : ℚ := 2
  let learningHardMinutes : ℚ := 10
  if progress.state = CardState.new ∨ progress.state = CardState.learning then
    if rating = 1 then
      { state := CardState.learning
        ease_factor := progress.ease_factor
        interval_days := progress.interval_days
        repetitions := progress.repetitions
        lapses := progress.lapses
        learning_step_index := 0
        due_at := now + learningAgainMinutes * msPerMinute
        last_reviewed_at := now }
    else if rating = 2 then
      { state := CardState.learning
        ease_factor := progress.ease_factor
        interval_days := progress.interval_days
        repetitions := progress.repetitions
        lapses := progress.lapses
        learning_step_index := progress.learning_step_index
        due_at := now + learningHardMinutes * msPerMinute
        last_reviewed_at := now }
    else if rating = 3 then
      { state := CardState.review
        ease_factor := calculateNewEaseFactor progress.ease_factor rating
        interval_days := 1
        repetitions := 1
        lapses := progress.lapses
        learning_step_index := 1
        due_at := midnightOf 1
        last_reviewed_at := now }
    else if rating = 4 then
      { state := CardState.review
        ease_factor := calculateNewEaseFactor progress.ease_factor rating
        interval_days := 4
        repetitions := 1
        lapses := progress.lapses
        learning_step_index := progress.learning_step_index
        due_at := midnightOf 4
        last_reviewed_at := now }
    else
      { state := progress.state
        ease_factor := progress.ease_factor
        interval_days := progress.interval_days
        repetitions := progress.repetitions
        lapses := progress.lapses
        learning_step_index := progress.learning_step_index
        due_at := now
        last_reviewed_at := now }
  else
    if rating = 1 then
      { state := CardState.learning
        ease_factor := max (13/10) (progress.ease_factor - 2/10)
        interval_days := max 1 (jround (progress.interval_days * opts.lapseIntervalPercent / 100))
        repetitions := progress.repetitions
        lapses := progress.lapses + 1
        learning_step_index := 0
        due_at := now + learningAgainMinutes * msPerMinute
        last_reviewed_at := now }
    else
      let newEaseFactor := calculateNewEaseFactor progress.ease_factor rating
      let baseInterval0 : ℚ :=
        if progress.repetitions = 0 then 1
        else if progress.repetitions = 1 then 6
        else progress.interval_days * newEaseFactor
      let baseInterval1 : ℚ :=
        if rating = 2 then progress.interval_days * opts.hardIntervalFactor
        else if rating = 4 then baseInterval0 * opts.easyBonus
        else baseInterval0
      let baseInterval2 := baseInterval1 * opts.intervalModifier
      let newIntervalDays :=
        max 1 (min opts.maxIntervalDays (applyFuzz (jround baseInterval2) false rand))
      { state := progress.state
        ease_factor := newEaseFactor
        interval_days := newIntervalDays
        repetitions := progress.repetitions + 1
        lapses := progress.lapses
        learning_step_index := progress.learning_step_index
        due_at := midnightOf newIntervalDays
        last_reviewed_at := now }

/-- The fields of a card-progress row that `getDueCards` consults: the
card it belongs to, its state, and its due timestamp. -/
structure ProgressRow where
  card_id : ℕ
  state : CardState
  due_at : ℚ
deriving DecidableEq, Repr

/-- The order imposed by `getDueCards`'s comparator: LEARNING rows sort
before all others, and within the two groups rows sort by ascending
`due_at`. -/
def dueRel (a b : ProgressRow) : Prop :=
  (b.state = CardState.learning → a.state = CardState.learning) ∧
  ((a.state = CardState.learning ↔ b.state = CardState.learning) → a.due_at ≤ b.due_at)

instance : DecidableRel dueRel := fun a b => by
  unfold dueRel; infer_instance

/-- The database ordering `.order('due_at', { ascending: true })`. -/
def dbRel (a b : ProgressRow) : Prop := a.due_at ≤ b.due_at

instance : DecidableRel dbRel := fun a b => by
  unfold dbRel; infer_instance

/-- `getDueCards` from srsService.js, with the storage layer made explicit:
`table` is the user's card_progress table, `cards` the ids of the deck's
cards. The database query filters to rows for deck cards with
`due_at ≤ now` and returns them ordered by ascending `due_at`; the client
then sorts with the learning-first comparator. Card payloads are dropped:
pairing each row with its card via `cardMap` is a lookup that does not
affect selection or order. -/
def getDueCards (cards : List ℕ) (table : List ProgressRow) (now : ℚ) : List ProgressRow :=
  let progressRows :=
    List.insertionSort dbRel
      (table.filter (fun p => decide (p.card_id ∈ cards) && decide (p.due_at ≤ now)))
  List.insertionSort dueRel progressRows

/-- A concrete stand-in for `computeLocalMidnight` used to instantiate
theorems at closed inputs: local midnight `d` days out in a UTC locale with
epoch at midnight, i.e. `d` whole days in milliseconds. -/
def sampleMidnight (d : ℚ) : ℚ := d * 86400000

/-! ## Helper lemmas -/

/-- `calculateNewEaseFactor` written with its clamp and delta explicit. -/
theorem calculateNewEaseFactor_eq (e r : ℚ) :
    calculateNewEaseFactor e r =
      max (13/10)
        (e + (1/10 - (5 - ratingToQuality r) * (8/100 + (5 - ratingToQuality r) * (2/100)))) := rfl

/-! ## Claims -/

/-- Claim C1, counterexample: for a NEW progress record with ease 2.5 and
rating GOOD under default deck options, the returned ease factor is not the
claimed 2.8 (GOOD maps to SM-2 quality 3, whose ease delta is −0.14, so the
result is 2.36). -/
theorem new_good_ease_not_2_8 :
    (scheduleNextReview ⟨CardState.new, 5/2, 0, 0, 0, 0⟩ 3 defaultDeckOptions 0
        sampleMidnight 0).ease_factor ≠ 14/5 := by
  norm_num [scheduleNextReview, calculateNewEaseFactor, ratingToQuality]

/-- Claim C1 (amended): for a NEW progress record with ease 2.5, interval 0,
repetitions 0, lapses 0, rating GOOD and default deck options,
`scheduleNextReview` returns state REVIEW, ease 2.36 (= 2.5 − 0.14),
interval 1 day, repetitions 1, step index 1, and a due time of local
midnight of the next calendar day, for every current instant and random
draw. -/
theorem new_good_graduates (now rand : ℚ) (midnightOf : ℚ → ℚ) :
    scheduleNextReview ⟨CardState.new, 5/2, 0, 0, 0, 0⟩ 3 defaultDeckOptions now
        midnightOf rand =
      ⟨CardState.review, 59/25, 1, 1, 0, 1, midnightOf 1, now⟩ := by
  norm_num [scheduleNextReview, calculateNewEaseFactor, ratingToQuality]

/-- Claim C2, counterexample: `scheduleNextReview` with the out-of-range
rating 5 does not fail; it returns an ordinary progress record (here: the
NEW record unchanged, with the due time set to the current instant). -/
theorem invalid_rating_returns_record_example :
    scheduleNextReview ⟨CardState.new, 5/2, 0, 0, 0, 0⟩ 5 defaultDeckOptions 0
        sampleMidnight 0 =
      ⟨CardState.new, 5/2, 0, 0, 0, 0, 0, 0⟩ := by
  norm_num [scheduleNextReview]

/-- Claim C2 (amended): a rating outside {1,2,3,4} is not rejected. From a
NEW or LEARNING record every scheduling field is returned unchanged with
the due time set to "now"; from a REVIEW record the rating is handled by
the successful-review branch exactly as GOOD would be (the quality mapper
defaults to 3). -/
theorem invalid_rating_behavior (p : CardProgress) (rating : ℚ) (opts : DeckOptions)
    (now rand : ℚ) (midnightOf : ℚ → ℚ)
    (h1 : rating ≠ 1) (h2 : rating ≠ 2) (h3 : rating ≠ 3) (h4 : rating ≠ 4) :
    (p.state = CardState.new ∨ p.state = CardState.learning →
      scheduleNextReview p rating opts now midnightOf rand =
        ⟨p.state, p.ease_factor, p.interval_days, p.repetitions, p.lapses,
          p.learning_step_index, now, now⟩) ∧
    (p.state = CardState.review →
      scheduleNextReview p rating opts now midnightOf rand =
        scheduleNextReview p 3 opts now midnightOf rand) := by
  constructor
  · intro hs
    rcases hs with h | h <;>
      simp [scheduleNextReview, h, h1, h2, h3, h4]
  · intro hs
    simp [scheduleNextReview, hs, h1, h2, h3, h4, calculateNewEaseFactor, ratingToQuality]

/-- Claim C2, witness for the amended theorem at rating 5 on a NEW record. -/
theorem invalid_rating_behavior_witness :
    scheduleNextReview ⟨CardState.new, 5/2, 0, 0, 0, 0⟩ 5 defaultDeckOptions 7
        sampleMidnight 0 =
      ⟨CardState.new, 5/2, 0, 0, 0, 0, 7, 7⟩ := by
  have h := (invalid_rating_behavior ⟨CardState.new, 5/2, 0, 0, 0, 0⟩ 5 defaultDeckOptions
    7 0 sampleMidnight (by norm_num) (by norm_num) (by norm_num) (by norm_num)).1
    (Or.inl rfl)
  simpa using h

/-- Claim C3, counterexample: an AGAIN rating on a NEW record passes the
input ease factor through unchanged, so a starting ease of 1.0 yields a
returned ease factor below 1.3. -/
theorem ease_floor_violated_for_low_input :
    (scheduleNextReview ⟨CardState.new, 1, 0, 0, 0, 0⟩ 1 defaultDeckOptions 0
        sampleMidnight 0).ease_factor < 13/10 := by
  norm_num [scheduleNextReview]

set_option maxHeartbeats 2000000 in
/-- Claim C3 (amended): the 1.3 ease floor is an invariant that
`scheduleNextReview` preserves: for every rating in {1,2,3,4}, if the input
ease factor is at least 1.3 then so is the returned one (branches that
recompute ease clamp it at 1.3; the learning-phase AGAIN/HARD branches pass
the input through unchanged). -/
theorem ease_floor_preserved (p : CardProgress) (rating : ℚ) (opts : DeckOptions)
    (now rand : ℚ) (midnightOf : ℚ → ℚ)
    (hr : rating = 1 ∨ rating = 2 ∨ rating = 3 ∨ rating = 4)
    (he : 13/10 ≤ p.ease_factor) :
    13/10 ≤ (scheduleNextReview p rating opts now midnightOf rand).ease_factor := by
  obtain ⟨s, e, i, r, l, x⟩ := p
  simp only [CardProgress.ease_factor] at he
  rcases hr with h | h | h | h <;> subst h <;> cases s <;>
    norm_num [scheduleNextReview, calculateNewEaseFactor] <;>
    first
      | exact he
      | exact le_max_left _ _

/-- Claim C3, witness for the amended theorem: rating AGAIN on a NEW record
with ease 1.5 keeps the ease factor at least 1.3. -/
theorem ease_floor_preserved_witness :
    13/10 ≤ (scheduleNextReview ⟨CardState.new, 3/2, 0, 0, 0, 0⟩ 1 defaultDeckOptions 0
        sampleMidnight 0).ease_factor :=
  ease_floor_preserved ⟨CardState.new, 3/2, 0, 0, 0, 0⟩ 1 defaultDeckOptions 0 0
    sampleMidnight (Or.inl rfl) (by norm_num)

/-- Claim C4, counterexample: with `maxIntervalDays = 0` the final
`max(1, ...)` floor pushes the interval to 1, which exceeds the cap (the
cap only holds once it is at least 1). -/
theorem interval_cap_violated_for_zero_cap :
    ({ defaultDeckOptions with maxIntervalDays := 0 } : DeckOptions).maxIntervalDays <
      (scheduleNextReview ⟨CardState.review, 5/2, 10, 5, 0, 2⟩ 3
        { defaultDeckOptions with maxIntervalDays := 0 } 0 sampleMidnight
        (1/2)).interval_days := by
  norm_num [scheduleNextReview, calculateNewEaseFactor, ratingToQuality, applyFuzz,
    jround, defaultDeckOptions]
  decide

/-- Claim C4 (amended): for every REVIEW record, every successful rating
in {2,3,4} and every random draw, the returned interval never exceeds
`maxIntervalDays`, provided the configured cap is at least 1. -/
theorem review_interval_within_cap (p : CardProgress) (rating : ℚ) (opts : DeckOptions)
    (now rand : ℚ) (midnightOf : ℚ → ℚ)
    (hs : p.state = CardState.review)
    (hr : rating = 2 ∨ rating = 3 ∨ rating = 4)
    (hm : 1 ≤ opts.maxIntervalDays) :
    (scheduleNextReview p rating opts now midnightOf rand).interval_days ≤
      opts.maxIntervalDays := by
  rcases hr with h | h | h <;> subst h <;>
    norm_num [scheduleNextReview, hs] <;>
    exact max_le hm (min_le_left _ _)

/-- Claim C4, witness: a concrete REVIEW record graded GOOD under default
deck options stays within the default 36500-day cap. -/
theorem review_interval_within_cap_witness :
    (scheduleNextReview ⟨CardState.review, 5/2, 10, 5, 0, 2⟩ 3 defaultDeckOptions 0
        sampleMidnight (1/2)).interval_days ≤ defaultDeckOptions.maxIntervalDays :=
  review_interval_within_cap ⟨CardState.review, 5/2, 10, 5, 0, 2⟩ 3 defaultDeckOptions
    0 (1/2) sampleMidnight rfl (Or.inr (Or.inl rfl)) (by norm_num [defaultDeckOptions])

/-- Claim C5: an AGAIN rating on any REVIEW record lapses the card: state
LEARNING, lapses incremented by exactly 1, step index 0, ease clamped at
max(1.3, ease − 0.2), interval max(1, round(interval ×
lapseIntervalPercent / 100)), and due exactly 2 minutes (120000 ms) after
"now". -/
theorem review_again_lapses (p : CardProgress) (opts : DeckOptions)
    (now rand : ℚ) (midnightOf : ℚ → ℚ) (hs : p.state = CardState.review) :
    scheduleNextReview p 1 opts now midnightOf rand =
      ⟨CardState.learning, max (13/10) (p.ease_factor - 2/10),
        max 1 (jround (p.interval_days * opts.lapseIntervalPercent / 100)),
        p.repetitions, p.lapses + 1, 0, now + 120000, now⟩ := by
  norm_num [scheduleNextReview, hs]
  decide

/-- Claim C5, witness: the spec scenario — REVIEW, ease 2.5, interval 10,
repetitions 3, `lapseIntervalPercent` 10 — yields LEARNING, lapses 1, ease
2.3, interval 1, due now + 2 minutes. -/
theorem review_again_lapses_witness :
    scheduleNextReview ⟨CardState.review, 5/2, 10, 3, 0, 2⟩ 1 defaultDeckOptions 1000
        sampleMidnight 0 =
      ⟨CardState.learning, 23/10, 1, 3, 1, 0, 121000, 1000⟩ := by
  have h := review_again_lapses ⟨CardState.review, 5/2, 10, 3, 0, 2⟩ defaultDeckOptions
    1000 0 sampleMidnight rfl
  rw [h]
  norm_num [jround, defaultDeckOptions]

/-- Claim C6, counterexample: with fuzzing disabled, an input below 2 is
returned raw, not rounded: `applyFuzz 1.5` gives 1.5 while rounding would
give 2. -/
theorem disabled_fuzz_not_rounded_below_two :
    applyFuzz (3/2) true 0 ≠ jround (3/2) := by
  norm_num [applyFuzz, jround]

/-- Claim C6 (amended): with `disabled = true`, `applyFuzz` ignores the
random draw entirely and returns the input unchanged when it is below 2,
and the rounded input otherwise. -/
theorem disabled_fuzz_deterministic (x rand : ℚ) :
    applyFuzz x true rand = if x < 2 then x else jround x := by
  simp [applyFuzz]

/-- Claim C7: `parseLearningSteps` always returns a non-empty sequence, and
the empty string, a null argument, and "abc,-1,0" (whose every token parses
to NaN or a nonpositive value) all return the default `[10, 1440]`. -/
theorem parseLearningSteps_total_and_defaults :
    (∀ s : Option String, parseLearningSteps s ≠ []) ∧
    parseLearningSteps (some "") = [10, 1440] ∧
    parseLearningSteps none = [10, 1440] ∧
    parseLearningSteps (some "abc,-1,0") = [10, 1440] := by
  refine ⟨?_, by rfl, by rfl, ?_⟩
  · intro s
    cases s with
    | none => simp [parseLearningSteps]
    | some s =>
      by_cases he : s.data = []
      · simp [parseLearningSteps, he]
      · simp only [parseLearningSteps, if_neg he]
        by_cases hl : 0 < (List.filterMap parseStep (jsSplit ',' s.data [])).length
        · simpa [if_pos hl] using List.ne_nil_of_length_pos hl
        · simp [if_neg hl]
  · have hd : "abc,-1,0".data = ['a', 'b', 'c', ',', '-', '1', ',', '0'] := by decide
    have habc : parseStep ['a', 'b', 'c'] = none := by rfl
    have hneg : parseStep ['-', '1'] = none := by
      rw [parseStep]
      have h1 : jsToLower (jsTrim ['-', '1']) = ['-', '1'] := by rfl
      have h2 : jsParseFloat ['-', '1'] = some (floatVal true 1 0 0 0) := by rfl
      rw [h1, h2]
      norm_num [floatVal]
    have hzero : parseStep ['0'] = none := by
      rw [parseStep]
      have h1 : jsToLower (jsTrim ['0']) = ['0'] := by rfl
      have h2 : jsParseFloat ['0'] = some (floatVal false 0 0 0 0) := by rfl
      rw [h1, h2]
      norm_num [floatVal]
    simp only [parseLearningSteps, hd]
    have hsplit : jsSplit ',' ['a', 'b', 'c', ',', '-', '1', ',', '0'] [] =
        [['a', 'b', 'c'], ['-', '1'], ['0']] := by rfl
    rw [hsplit]
    simp [List.filterMap, habc, hneg, hzero]

/-- Claim C8: `calculateNewEaseFactor` is monotone in the rating over
{AGAIN, HARD, GOOD, EASY}: a higher rating never yields a smaller ease
factor for the same starting ease. -/
theorem calculateNewEaseFactor_monotone (ease r1 r2 : ℚ)
    (h1 : r1 = 1 ∨ r1 = 2 ∨ r1 = 3 ∨ r1 = 4)
    (h2 : r2 = 1 ∨ r2 = 2 ∨ r2 = 3 ∨ r2 = 4)
    (hle : r1 ≤ r2) :
    calculateNewEaseFactor ease r1 ≤ calculateNewEaseFactor ease r2 := by
  rcases h1 with h | h | h | h <;> rcases h2 with g | g | g | g <;> subst h <;> subst g <;>
    first
      | exact le_refl _
      | (revert hle; decide)
      | (rw [calculateNewEaseFactor_eq, calculateNewEaseFactor_eq]
         refine max_le_max (le_refl _) ?_
         norm_num [ratingToQuality]
         try linarith)

/-- Claim C8, witness: at ease 2.5, AGAIN yields at most what EASY yields. -/
theorem calculateNewEaseFactor_monotone_witness :
    calculateNewEaseFactor (5/2) 1 ≤ calculateNewEaseFactor (5/2) 4 :=
  calculateNewEaseFactor_monotone (5/2) 1 4 (Or.inl rfl)
    (Or.inr (Or.inr (Or.inr rfl))) (by norm_num)

instance : IsTotal ProgressRow dueRel := by
  constructor
  intro a b
  by_cases ha : a.state = CardState.learning <;> by_cases hb : b.state = CardState.learning <;>
    simp [dueRel, ha, hb] <;> exact le_total _ _

instance : IsTrans ProgressRow dueRel := by
  constructor
  intro a b c hab hbc
  obtain ⟨hab1, hab2⟩ := hab
  obtain ⟨hbc1, hbc2⟩ := hbc
  refine ⟨fun hc => hab1 (hbc1 hc), fun hac => ?_⟩
  by_cases ha : a.state = CardState.learning
  · have hc := hac.mp ha
    have hb := hbc1 hc
    exact le_trans (hab2 (iff_of_true ha hb)) (hbc2 (iff_of_true hb hc))
  · have hc : ¬c.state = CardState.learning := fun hc => ha (hac.mpr hc)
    have hb : ¬b.state = CardState.learning := fun hb => ha (hab1 hb)
    exact le_trans (hab2 (iff_of_false ha hb)) (hbc2 (iff_of_false hb hc))

instance : IsTotal ProgressRow dbRel := ⟨fun _ _ => le_total _ _⟩

instance : IsTrans ProgressRow dbRel := ⟨fun _ _ _ => le_trans⟩

/-- Claim C9: `getDueCards` returns exactly the progress rows of deck cards
with `due_at ≤ now` (as a membership characterization plus a permutation of
the filtered table), ordered so that every LEARNING row precedes every
non-LEARNING row and rows within each group appear in ascending `due_at`
order; concretely, a LEARNING card due one minute ago is returned before a
REVIEW card due a whole day ago. -/
theorem getDueCards_spec :
    (∀ (cards : List ℕ) (table : List ProgressRow) (now : ℚ),
      List.Perm (getDueCards cards table now)
        (table.filter (fun p => decide (p.card_id ∈ cards) && decide (p.due_at ≤ now)))) ∧
    (∀ (cards : List ℕ) (table : List ProgressRow) (now : ℚ) (p : ProgressRow),
      p ∈ getDueCards cards table now ↔
        p ∈ table ∧ p.card_id ∈ cards ∧ p.due_at ≤ now) ∧
    (∀ (cards : List ℕ) (table : List ProgressRow) (now : ℚ),
      (getDueCards cards table now).Pairwise dueRel) ∧
    getDueCards [1, 2]
        [⟨2, CardState.review, 13600000⟩, ⟨1, CardState.learning, 99940000⟩]
        100000000 =
      [⟨1, CardState.learning, 99940000⟩, ⟨2, CardState.review, 13600000⟩] := by
  have hperm : ∀ (cards : List ℕ) (table : List ProgressRow) (now : ℚ),
      List.Perm (getDueCards cards table now)
        (table.filter (fun p => decide (p.card_id ∈ cards) && decide (p.due_at ≤ now))) := by
    intro cards table now
    unfold getDueCards
    exact ((List.perm_insertionSort dueRel _).trans (List.perm_insertionSort dbRel _))
  refine ⟨hperm, ?_, ?_, ?_⟩
  · intro cards table now p
    rw [(hperm cards table now).mem_iff, List.mem_filter]
    simp [and_assoc]
  · intro cards table now
    exact List.sorted_insertionSort dueRel _
  · norm_num [getDueCards, List.insertionSort, List.orderedInsert, dueRel, dbRel]
    decide

/-- Claim C10: graduating a NEW or LEARNING card with EASY returns the
input `learning_step_index` untouched, while GOOD sets it to 1; both
graduations return `lapses` unchanged. -/
theorem graduation_frame (p : CardProgress) (opts : DeckOptions)
    (now rand : ℚ) (midnightOf : ℚ → ℚ)
    (hs : p.state = CardState.new ∨ p.state = CardState.learning) :
    (scheduleNextReview p 4 opts now midnightOf rand).learning_step_index =
        p.learning_step_index ∧
    (scheduleNextReview p 3 opts now midnightOf rand).learning_step_index = 1 ∧
    (scheduleNextReview p 4 opts now midnightOf rand).lapses = p.lapses ∧
    (scheduleNextReview p 3 opts now midnightOf rand).lapses = p.lapses := by
  rcases hs with h | h <;> norm_num [scheduleNextReview, h]

/-- Claim C10, witness: a NEW record with step index 5 and lapses 7 keeps
step index 5 and lapses 7 under EASY, and gets step index 1 with lapses 7
under GOOD. -/
theorem graduation_frame_witness :
    (scheduleNextReview ⟨CardState.new, 5/2, 0, 0, 7, 5⟩ 4 defaultDeckOptions 0
        sampleMidnight 0).learning_step_index = 5 ∧
    (scheduleNextReview ⟨CardState.new, 5/2, 0, 0, 7, 5⟩ 3 defaultDeckOptions 0
        sampleMidnight 0).learning_step_index = 1 ∧
    (scheduleNextReview ⟨CardState.new, 5/2, 0, 0, 7, 5⟩ 4 defaultDeckOptions 0
        sampleMidnight 0).lapses = 7 ∧
    (scheduleNextReview ⟨CardState.new, 5/2, 0, 0, 7, 5⟩ 3 defaultDeckOptions 0
        sampleMidnight 0).lapses = 7 := by
  have h := graduation_frame ⟨CardState.new, 5/2, 0, 0, 7, 5⟩ defaultDeckOptions 0 0
    sampleMidnight (Or.inl rfl)
  simpa using h

end QuickDraw
